import Mathlib

/-!
# Verification of the shadow-rendering subsystem

A shallow embedding, over the real numbers, of the shadow renderer
(`ShadowRenderer` and its helper functions) together with the engine
constants it uses.  Pure numeric code (cascade split generation, Gaussian
blur weights, depth-range evaluation, texel snapping) is translated
directly from the source; the handful of engine math helpers that the
renderer imports from the engine's math library (`lerp`, `Vec3`, `Mat4`,
`BoundingBox`) are not part of the sources and are modelled from the
specification, as documented on each such definition.  JavaScript numbers
are modelled as real numbers; where the distinction between real
arithmetic and IEEE-754 arithmetic is itself the point (division by zero
producing NaN), a separate explicit model of JavaScript number semantics
is used and clearly marked.
-/

noncomputable section
namespace Engine

/-! ## Constants (from the engine constants module in the sources) -/

def LIGHTTYPE_DIRECTIONAL : ℕ := 0
def LIGHTTYPE_OMNI : ℕ := 1
def LIGHTTYPE_SPOT : ℕ := 2

def SHADOW_PCF3 : ℕ := 0
def SHADOW_VSM8 : ℕ := 1
def SHADOW_VSM16 : ℕ := 2
def SHADOW_VSM32 : ℕ := 3
def SHADOW_PCF5 : ℕ := 4
def SHADOW_PCF1 : ℕ := 5
def SHADOW_COUNT : ℕ := 6

def BLUR_BOX : ℕ := 0
def BLUR_GAUSSIAN : ℕ := 1

def SHADOWUPDATE_NONE : ℕ := 0
def SHADOWUPDATE_THISFRAME : ℕ := 1
def SHADOWUPDATE_REALTIME : ℕ := 2

/-- Modelled from the spec: the depth comparator constant `FUNC_LESSEQUAL`
("less-or-equal comparator") from the graphics constants module, which is
not among the sources.  Only its identity matters here, not its value. -/
def FUNC_LESSEQUAL : ℕ := 3

/-- Modelled from the spec: `math.lerp` from the engine math library (not
among the sources): linear interpolation `lerp(a, b, t) = a + (b - a) * t`
between `a` (at `t = 0`) and `b` (at `t = 1`). -/
def mathLerp (a b t : ℝ) : ℝ := a + (b - a) * t

/-- The light parameters read by the shadow renderer.  The light object is
owned by the scene graph; this structure collects the fields the renderer
accesses (`numCascades`, `cascadeDistribution`, `shadowBias`, update mode,
…).  Derived flags that the light computes from its shadow type
(`_isVsm`, `_isPcf`, `numShadowFaces`) are kept as fields because the
light class itself is not among the sources. -/
structure Light where
  numCascades : ℕ
  cascadeDistribution : ℝ
  shadowDistance : ℝ
  shadowBias : ℝ
  shadowResolution : ℝ
  lightType : ℕ
  shadowType : ℕ
  enabled : Bool
  castShadows : Bool
  shadowUpdateMode : ℕ
  visibleThisFrame : Bool
  isVsm : Bool
  isPcf : Bool
  vsmBlurSize : ℕ
  vsmBlurMode : ℕ
  numShadowFaces : ℕ

/-! ## Cascade split distances (`generateSplitDistances`) -/

/-- The "practical split distance" written into slot `i - 1` of the cascade
distance array for split index `i`: the lerp, by the light's cascade
distribution factor, between the linear split `near + (far - near) * i/C`
and the logarithmic split `near * (far/near)^(i/C)`. -/
def splitDistance (light : Light) (nearDist farDist : ℝ) (i : ℕ) : ℝ :=
  let fraction : ℝ := (i : ℝ) / (light.numCascades : ℝ)
  let linearDist := nearDist + (farDist - nearDist) * fraction
  let logDist := nearDist * (farDist / nearDist) ^ fraction
  mathLerp linearDist logDist light.cascadeDistribution

/-- `ShadowRenderer.generateSplitDistances`: fill the cascade distance
array with `farDist`, then overwrite slots `0 … C-2` with the practical
split distances for split indices `1 … C-1`.  Returned as the new contents
of `light._shadowCascadeDistances`. -/
def generateSplitDistances (light : Light) (nearDist farDist : ℝ) : List ℝ :=
  (List.range' 1 (light.numCascades - 1)).foldl
    (fun dists i => dists.set (i - 1) (splitDistance light nearDist farDist i))
    (List.replicate light.numCascades farDist)

lemma foldl_set_length (g : ℕ → ℝ) (is : List ℕ) (init : List ℝ) :
    (is.foldl (fun d i => d.set (i - 1) (g i)) init).length = init.length := by
  induction is generalizing init with
  | nil => rfl
  | cons i is ih => simpa using ih (init.set (i - 1) (g i))

/-- Reading the result of the fill loop: slot `j` holds `g (j+1)` when some
split index `j + 1` occurs in the loop range, and the initial contents
otherwise. -/
lemma foldl_set_getElem? (g : ℕ → ℝ) (is : List ℕ) (h1 : ∀ i ∈ is, 1 ≤ i)
    (init : List ℝ) (j : ℕ) :
    (is.foldl (fun d i => d.set (i - 1) (g i)) init)[j]? =
      if j + 1 ∈ is then (if j < init.length then some (g (j + 1)) else none)
      else init[j]? := by
  induction is generalizing init with
  | nil => simp
  | cons i is ih =>
    have hi : 1 ≤ i := h1 i (List.mem_cons_self i is)
    rw [List.foldl_cons, ih (fun k hk => h1 k (List.mem_cons_of_mem _ hk))]
    by_cases hmem : j + 1 ∈ is
    · simp [hmem, List.mem_cons, List.length_set]
    · by_cases hij : i = j + 1
      · have hidx : i - 1 = j := by omega
        simp [hmem, hij, List.mem_cons, hidx, List.getElem?_set]
      · have hidx : i - 1 ≠ j := by omega
        have hji : ¬ (j + 1 = i) := fun h => hij h.symm
        simp [hmem, hij, List.mem_cons, List.getElem?_set, hidx, hji]

lemma generateSplitDistances_length (light : Light) (n f : ℝ) :
    (generateSplitDistances light n f).length = light.numCascades := by
  unfold generateSplitDistances
  rw [foldl_set_length]; simp

/-- Closed form of the cascade distance array: slot `j` holds the practical
split distance for split index `j + 1`, except the final slot, which keeps
the far distance. -/
lemma generateSplitDistances_getElem? (light : Light) (n f : ℝ) (j : ℕ)
    (hj : j < light.numCascades) :
    (generateSplitDistances light n f)[j]? =
      some (if j + 1 < light.numCascades then splitDistance light n f (j + 1) else f) := by
  unfold generateSplitDistances
  rw [foldl_set_getElem?]
  · by_cases h : j + 1 < light.numCascades
    · have hmem : j + 1 ∈ List.range' 1 (light.numCascades - 1) := by
        rw [List.mem_range'_1]; omega
      simp [hmem, hj, h]
    · have hmem : j + 1 ∉ List.range' 1 (light.numCascades - 1) := by
        rw [List.mem_range'_1]; omega
      simp [hmem, hj, h, List.getElem?_replicate]
  · intro i hi
    rw [List.mem_range'_1] at hi
    omega

/-- C1: for a directional light with `C ≥ 1` cascades, near distance
`N > 0` and far distance `F > N`, `generateSplitDistances` writes, for each
split index `i ∈ [1, C-1]`, `split[i-1] = lerp(N + (F-N)·i/C,
N·(F/N)^(i/C), d)` where `d` is the light's cascade distribution factor,
and leaves the final entry of the cascade-distance array equal to `F`;
`d = 0` yields the pure linear value and `d = 1` the pure geometric
value. -/
theorem generateSplitDistances_formula (light : Light) (n f : ℝ)
    (hC : 1 ≤ light.numCascades) (hn : 0 < n) (hnf : n < f) :
    (∀ i, 1 ≤ i → i < light.numCascades →
        (generateSplitDistances light n f)[i - 1]? =
          some (mathLerp (n + (f - n) * ((i : ℝ) / (light.numCascades : ℝ)))
            (n * (f / n) ^ ((i : ℝ) / (light.numCascades : ℝ)))
            light.cascadeDistribution)) ∧
    (generateSplitDistances light n f).getLast? = some f ∧
    (light.cascadeDistribution = 0 → ∀ i, 1 ≤ i → i < light.numCascades →
        (generateSplitDistances light n f)[i - 1]? =
          some (n + (f - n) * ((i : ℝ) / (light.numCascades : ℝ)))) ∧
    (light.cascadeDistribution = 1 → ∀ i, 1 ≤ i → i < light.numCascades →
        (generateSplitDistances light n f)[i - 1]? =
          some (n * (f / n) ^ ((i : ℝ) / (light.numCascades : ℝ)))) := by
  have key : ∀ i, 1 ≤ i → i < light.numCascades →
      (generateSplitDistances light n f)[i - 1]? =
        some (splitDistance light n f i) := by
    intro i h1 h2
    rw [generateSplitDistances_getElem? light n f (i - 1) (by omega)]
    have : i - 1 + 1 = i := by omega
    rw [this]
    simp [h2]
  refine ⟨fun i h1 h2 => key i h1 h2, ?_, ?_, ?_⟩
  · have hlen := generateSplitDistances_length light n f
    have hne : generateSplitDistances light n f ≠ [] := by
      intro h
      rw [h] at hlen
      simp at hlen
      omega
    rw [List.getLast?_eq_getElem? , hlen]
    rw [generateSplitDistances_getElem? light n f (light.numCascades - 1) (by omega)]
    have : ¬ (light.numCascades - 1 + 1 < light.numCascades) := by omega
    simp [this]
  · intro hd i h1 h2
    rw [key i h1 h2]
    simp [splitDistance, mathLerp, hd]
  · intro hd i h1 h2
    rw [key i h1 h2]
    simp [splitDistance, mathLerp, hd]

/-- A concrete two-cascade light used to witness the cascade theorems. -/
def lightTwoCascades : Light where
  numCascades := 2
  cascadeDistribution := 1/2
  shadowDistance := 4
  shadowBias := 0
  shadowResolution := 1024
  lightType := 0
  shadowType := 0
  enabled := true
  castShadows := true
  shadowUpdateMode := 2
  visibleThisFrame := true
  isVsm := false
  isPcf := true
  vsmBlurSize := 0
  vsmBlurMode := 0
  numShadowFaces := 2

theorem generateSplitDistances_formula_witness :
    (generateSplitDistances lightTwoCascades 1 4).getLast? = some 4 :=
  (generateSplitDistances_formula lightTwoCascades 1 4 (by decide)
    (by norm_num) (by norm_num)).2.1

/-! ## Monotonicity and bounds of the cascade splits (C2) -/

lemma splitDistance_zero (light : Light) (n f : ℝ) :
    splitDistance light n f 0 = n := by
  simp [splitDistance, mathLerp]

lemma splitDistance_top (light : Light) (n f : ℝ)
    (hC : 1 ≤ light.numCascades) (hn : 0 < n) :
    splitDistance light n f light.numCascades = f := by
  have hC0 : (light.numCascades : ℝ) ≠ 0 := Nat.cast_ne_zero.mpr (by omega)
  simp only [splitDistance, mathLerp, div_self hC0, Real.rpow_one]
  field_simp

lemma splitDistance_strictMono (light : Light) (n f : ℝ) (hn : 0 < n) (hnf : n < f)
    (hd0 : 0 ≤ light.cascadeDistribution) (hd1 : light.cascadeDistribution ≤ 1)
    (hC : 1 ≤ light.numCascades) (i k : ℕ) (hik : i < k) (hk : k ≤ light.numCascades) :
    splitDistance light n f i < splitDistance light n f k := by
  have hCpos : (0:ℝ) < (light.numCascades : ℝ) := Nat.cast_pos.mpr (by omega)
  have hfrac : (i : ℝ) / (light.numCascades : ℝ) < (k : ℝ) / (light.numCascades : ℝ) := by
    exact (div_lt_div_right hCpos).mpr (by exact_mod_cast hik)
  have hb : 1 < f / n := (one_lt_div hn).mpr hnf
  have hlin : n + (f - n) * ((i:ℝ) / (light.numCascades : ℝ)) <
      n + (f - n) * ((k:ℝ) / (light.numCascades : ℝ)) := by nlinarith
  have hlog : n * (f/n) ^ ((i:ℝ) / (light.numCascades : ℝ)) <
      n * (f/n) ^ ((k:ℝ) / (light.numCascades : ℝ)) := by
    exact mul_lt_mul_of_pos_left ((Real.rpow_lt_rpow_left_iff hb).mpr hfrac) hn
  simp only [splitDistance, mathLerp]
  rcases eq_or_lt_of_le hd0 with hd | hd
  · rw [← hd]
    simpa using hlin
  · have h1 : (0:ℝ) ≤ 1 - light.cascadeDistribution := by linarith
    nlinarith [mul_lt_mul_of_pos_left hlog hd, mul_le_mul_of_nonneg_left hlin.le h1]

/-- Every entry of the cascade distance array is a practical split distance
(reading the final `farDist` entry as the split for index `C`). -/
lemma generateSplitDistances_get (light : Light) (n f : ℝ)
    (hC : 1 ≤ light.numCascades) (hn : 0 < n) (j : ℕ)
    (hj : j < (generateSplitDistances light n f).length) :
    (generateSplitDistances light n f).get ⟨j, hj⟩ = splitDistance light n f (j + 1) := by
  have hj' : j < light.numCascades := by
    rwa [generateSplitDistances_length] at hj
  have h1 := generateSplitDistances_getElem? light n f j hj'
  have h2 : (generateSplitDistances light n f)[j]? =
      some ((generateSplitDistances light n f).get ⟨j, hj⟩) := by
    rw [List.getElem?_eq_getElem hj]
    simp
  rw [h1] at h2
  by_cases hc : j + 1 < light.numCascades
  · rw [if_pos hc] at h2
    exact (Option.some.inj h2).symm
  · rw [if_neg hc] at h2
    have hj1 : j + 1 = light.numCascades := by omega
    rw [hj1, splitDistance_top light n f hC hn]
    exact (Option.some.inj h2).symm

/-- A concrete four-cascade light matching the spec's worked example. -/
def lightFourCascades : Light where
  numCascades := 4
  cascadeDistribution := 0.5
  shadowDistance := 1000.1
  shadowBias := 0
  shadowResolution := 1024
  lightType := 0
  shadowType := 0
  enabled := true
  castShadows := true
  shadowUpdateMode := 2
  visibleThisFrame := true
  isVsm := false
  isPcf := true
  vsmBlurSize := 0
  vsmBlurMode := 0
  numShadowFaces := 4

/-- Sandwich a positive real between `lo` and `hi` by comparing `n`-th
powers. -/
lemma bounds_from_pow (b lo hi c : ℝ) (m : ℕ) (hb : 0 < b) (hhi : 0 ≤ hi)
    (hbm : b ^ m = c) (hlom : lo ^ m < c) (hhim : c < hi ^ m) : lo < b ∧ b < hi := by
  constructor
  · rcases lt_or_le lo 0 with h | h
    · linarith
    · by_contra hcon
      push_neg at hcon
      have := pow_le_pow_left₀ hb.le hcon m
      rw [hbm] at this
      nlinarith [pow_le_pow_left₀ h (le_refl lo) m]
  · by_contra hcon
    push_neg at hcon
    have := pow_le_pow_left₀ hhi hcon m
    rw [hbm] at this
    linarith

lemma rpow_10001_quarter : 10.0001 < (10001:ℝ) ^ ((1:ℝ)/4) ∧ (10001:ℝ) ^ ((1:ℝ)/4) < 10.0003 := by
  have hb4 : ((10001:ℝ) ^ ((1:ℝ)/4)) ^ (4:ℕ) = 10001 := by
    rw [← Real.rpow_natCast ((10001:ℝ) ^ ((1:ℝ)/4)) 4,
      ← Real.rpow_mul (by norm_num : (0:ℝ) ≤ 10001)]
    norm_num
  exact bounds_from_pow _ _ _ _ 4 (Real.rpow_pos_of_pos (by norm_num) _) (by norm_num)
    hb4 (by norm_num) (by norm_num)

lemma rpow_10001_half : 100.004 < (10001:ℝ) ^ ((2:ℝ)/4) ∧ (10001:ℝ) ^ ((2:ℝ)/4) < 100.005 := by
  have hb2 : ((10001:ℝ) ^ ((2:ℝ)/4)) ^ (2:ℕ) = 10001 := by
    rw [← Real.rpow_natCast ((10001:ℝ) ^ ((2:ℝ)/4)) 2,
      ← Real.rpow_mul (by norm_num : (0:ℝ) ≤ 10001)]
    norm_num
  exact bounds_from_pow _ _ _ _ 2 (Real.rpow_pos_of_pos (by norm_num) _) (by norm_num)
    hb2 (by norm_num) (by norm_num)

lemma rpow_10001_threequarters :
    1000.03 < (10001:ℝ) ^ ((3:ℝ)/4) ∧ (10001:ℝ) ^ ((3:ℝ)/4) < 1000.1 := by
  have hb4 : ((10001:ℝ) ^ ((3:ℝ)/4)) ^ (4:ℕ) = 1000300030001 := by
    rw [← Real.rpow_natCast ((10001:ℝ) ^ ((3:ℝ)/4)) 4,
      ← Real.rpow_mul (by norm_num : (0:ℝ) ≤ 10001)]
    norm_num
  exact bounds_from_pow _ _ _ _ 4 (Real.rpow_pos_of_pos (by norm_num) _) (by norm_num)
    hb4 (by norm_num) (by norm_num)

lemma splitDistance_example (i : ℕ) :
    splitDistance lightFourCascades 0.1 1000.1 i =
      0.1 + (1000.1 - 0.1) * ((i:ℝ)/4) +
        (0.1 * (10001:ℝ) ^ ((i:ℝ)/4) - (0.1 + (1000.1 - 0.1) * ((i:ℝ)/4))) * 0.5 := by
  have h : ((1000.1:ℝ)/0.1) = 10001 := by norm_num
  simp only [splitDistance, mathLerp, lightFourCascades, h]
  norm_num

/-- C2 (amended): for every valid input (`N > 0`, `F > N`, `C ≥ 1`,
`d ∈ [0,1]`) the cascade split distances are strictly increasing and
bounded within `[N, F]`; for the specific input `N = 0.1`, `F = 1000.1`,
`C = 4`, `d = 0.5` the four cascade far bounds equal
`[125.55, 255.05, 425.05, 1000.1]` to within tolerance `1e-2`.  (The
spec's figures `[125.54, 255.03, 425.01]` were computed with `F = 1000`;
with `F = 1000.1` the code's values differ from them by more than the
tolerance, see the counterexample.) -/
theorem cascadeSplits_increasing_bounded :
    (∀ (light : Light) (n f : ℝ), 0 < n → n < f → 1 ≤ light.numCascades →
        0 ≤ light.cascadeDistribution → light.cascadeDistribution ≤ 1 →
        List.Chain' (· < ·) (generateSplitDistances light n f) ∧
        ∀ x ∈ generateSplitDistances light n f, n ≤ x ∧ x ≤ f) ∧
    ((generateSplitDistances lightFourCascades 0.1 1000.1).length = 4 ∧
     (∀ v : ℝ, (generateSplitDistances lightFourCascades 0.1 1000.1)[0]? = some v →
        |v - 125.55| ≤ 1e-2) ∧
     (∀ v : ℝ, (generateSplitDistances lightFourCascades 0.1 1000.1)[1]? = some v →
        |v - 255.05| ≤ 1e-2) ∧
     (∀ v : ℝ, (generateSplitDistances lightFourCascades 0.1 1000.1)[2]? = some v →
        |v - 425.05| ≤ 1e-2) ∧
     (generateSplitDistances lightFourCascades 0.1 1000.1)[3]? = some (1000.1 : ℝ)) := by
  constructor
  · intro light n f hn hnf hC hd0 hd1
    constructor
    · rw [List.chain'_iff_get]
      intro idx hidx
      rw [generateSplitDistances_get light n f hC hn idx (by omega),
        generateSplitDistances_get light n f hC hn (idx + 1) (by omega)]
      apply splitDistance_strictMono light n f hn hnf hd0 hd1 hC (idx+1) (idx+2) (by omega)
      rw [generateSplitDistances_length] at hidx
      omega
    · intro x hx
      obtain ⟨⟨j, hj⟩, rfl⟩ := List.mem_iff_get.mp hx
      rw [generateSplitDistances_get light n f hC hn j hj]
      have hj' : j < light.numCascades := by
        rwa [generateSplitDistances_length] at hj
      constructor
      · have h0 := splitDistance_strictMono light n f hn hnf hd0 hd1 hC 0 (j+1)
          (by omega) (by omega)
        rw [splitDistance_zero] at h0
        exact h0.le
      · rcases Nat.lt_or_ge (j+1) light.numCascades with hc | hc
        · have hend := splitDistance_strictMono light n f hn hnf hd0 hd1 hC (j+1)
            light.numCascades hc (le_refl _)
          rw [splitDistance_top light n f hC hn] at hend
          exact hend.le
        · have hj1 : j + 1 = light.numCascades := by omega
          rw [hj1, splitDistance_top light n f hC hn]
  · have hC : 1 ≤ lightFourCascades.numCascades := by decide
    have hn : (0:ℝ) < 0.1 := by norm_num
    have e0 := generateSplitDistances_getElem? lightFourCascades 0.1 1000.1 0 (by decide)
    have e1 := generateSplitDistances_getElem? lightFourCascades 0.1 1000.1 1 (by decide)
    have e2 := generateSplitDistances_getElem? lightFourCascades 0.1 1000.1 2 (by decide)
    have e3 := generateSplitDistances_getElem? lightFourCascades 0.1 1000.1 3 (by decide)
    have hlt : ∀ j : ℕ, j + 1 < lightFourCascades.numCascades ↔ j < 3 := by
      intro j
      show j + 1 < 4 ↔ _
      omega
    refine ⟨by rw [generateSplitDistances_length]; rfl, ?_, ?_, ?_, ?_⟩
    · intro v hv
      rw [e0, if_pos (by decide)] at hv
      obtain rfl : splitDistance lightFourCascades 0.1 1000.1 1 = v := Option.some.inj hv
      rw [splitDistance_example]
      have hb := rpow_10001_quarter
      norm_num at hb ⊢
      rw [abs_le]
      constructor <;> nlinarith [hb.1, hb.2]
    · intro v hv
      rw [e1, if_pos (by decide)] at hv
      obtain rfl : splitDistance lightFourCascades 0.1 1000.1 2 = v := Option.some.inj hv
      rw [splitDistance_example]
      have hb := rpow_10001_half
      norm_num at hb ⊢
      rw [abs_le]
      constructor <;> nlinarith [hb.1, hb.2]
    · intro v hv
      rw [e2, if_pos (by decide)] at hv
      obtain rfl : splitDistance lightFourCascades 0.1 1000.1 3 = v := Option.some.inj hv
      rw [splitDistance_example]
      have hb := rpow_10001_threequarters
      norm_num at hb ⊢
      rw [abs_le]
      constructor <;> nlinarith [hb.1, hb.2]
    · rw [e3, if_neg (by decide)]

theorem cascadeSplits_increasing_bounded_witness :
    List.Chain' (· < ·) (generateSplitDistances lightTwoCascades 1 4) :=
  (cascadeSplits_increasing_bounded.1 lightTwoCascades 1 4 (by norm_num) (by norm_num)
    (by decide) (by norm_num [lightTwoCascades]) (by norm_num [lightTwoCascades])).1

/-- C2 counterexample: at `N = 0.1`, `F = 1000.1`, `C = 4`, `d = 0.5` the
third cascade far bound produced by `generateSplitDistances` differs from
the spec's claimed value `425.01` by more than the stated tolerance
`1e-2` (the code's value is `≈ 425.054`). -/
theorem cascadeSplits_example_counterexample :
    (generateSplitDistances lightFourCascades 0.1 1000.1)[2]? =
      some (splitDistance lightFourCascades 0.1 1000.1 3) ∧
    ¬ |splitDistance lightFourCascades 0.1 1000.1 3 - 425.01| ≤ 1e-2 := by
  constructor
  · rw [generateSplitDistances_getElem? lightFourCascades 0.1 1000.1 2 (by decide),
      if_pos (by decide)]
  · intro hcon
    rw [splitDistance_example] at hcon
    have hb := rpow_10001_threequarters
    rw [abs_le] at hcon
    norm_num at hb hcon
    nlinarith [hb.1, hcon.1, hcon.2]

/-! ## Gaussian blur weights (`gauss`, `gaussWeights`) -/

/-- `gauss(x, sigma) = exp(-(x·x) / (2·sigma·sigma))`, the unnormalized
Gaussian evaluated over the reals. -/
def gauss (x sigma : ℝ) : ℝ := Real.exp (-(x * x) / (2 * sigma * sigma))

def maxBlurSize : ℕ := 25

/-- The unnormalized weights computed by the loop in `gaussWeights` for a
(clamped) kernel size `k`: `gauss(i - halfWidth, sigma)` for `i ∈ [0, k)`,
with `sigma = (k-1)/(2·3)` and `halfWidth = (k-1)·0.5`. -/
def gaussValues (k : ℕ) : List ℝ :=
  (List.range k).map fun (i : ℕ) => gauss ((i : ℝ) - ((k : ℝ) - 1) * 0.5) (((k : ℝ) - 1) / (2 * 3))

/-- `gaussWeights(kernelSize)`: clamp the kernel size to `maxBlurSize`,
evaluate the Gaussian at each tap, and normalize by the sum.  Real-valued
model of the source (see `gaussWeightsJS` for the IEEE-754 behaviour at
kernel size 1). -/
def gaussWeights (kernelSize : ℕ) : List ℝ :=
  let k := if kernelSize > maxBlurSize then maxBlurSize else kernelSize
  let values := gaussValues k
  let s := values.sum
  values.map fun v => v / s

lemma clamp_eq_min (kernelSize : ℕ) :
    (if kernelSize > maxBlurSize then maxBlurSize else kernelSize) =
      min kernelSize maxBlurSize := by
  by_cases h : kernelSize > maxBlurSize <;> simp [h] <;> omega

lemma gaussValues_pos (k : ℕ) : ∀ x ∈ gaussValues k, 0 < x := by
  intro x hx
  obtain ⟨i, _, rfl⟩ := List.mem_map.mp hx
  exact Real.exp_pos _

lemma gaussValues_sum_pos (k : ℕ) (hk : 1 ≤ k) : 0 < (gaussValues k).sum := by
  apply List.sum_pos _ (gaussValues_pos k)
  simp only [gaussValues, ne_eq, List.map_eq_nil_iff, List.range_eq_nil]
  omega

/-- C6 (amended): for every kernel size `k ≥ 2` (sizes above 25 are clamped
to 25), `gaussWeights` returns an array of `min k 25` weights computed with
`sigma = (k'-1)/6` and `weight[i] = exp(-(i-halfWidth)² / (2·sigma²))`,
normalized so that the weights sum to exactly 1 (hence within tolerance
`1e-6` of 1.0).  Kernel size 1 is excluded: there `sigma = 0` and the
JavaScript code divides `-0` by `0`, producing NaN (see the
counterexample). -/
theorem gaussWeights_normalized (kernelSize : ℕ) (hk : 2 ≤ kernelSize) :
    (gaussWeights kernelSize).length = min kernelSize maxBlurSize ∧
    (gaussWeights kernelSize).sum = 1 ∧
    (∀ i : ℕ, i < min kernelSize maxBlurSize →
      (gaussWeights kernelSize)[i]? =
        some (Real.exp (-(((i : ℝ) - ((min kernelSize maxBlurSize : ℕ) - 1) / 2) ^ 2 /
            (2 * ((((min kernelSize maxBlurSize : ℕ) : ℝ) - 1) / 6) ^ 2))) /
          (gaussValues (min kernelSize maxBlurSize)).sum)) := by
  have hgw : gaussWeights kernelSize =
      (gaussValues (min kernelSize maxBlurSize)).map
        (fun v => v / (gaussValues (min kernelSize maxBlurSize)).sum) := by
    unfold gaussWeights
    rw [clamp_eq_min]
  have hk1 : 1 ≤ min kernelSize maxBlurSize := by
    simp only [maxBlurSize]
    omega
  have hspos := gaussValues_sum_pos (min kernelSize maxBlurSize) hk1
  refine ⟨?_, ?_, ?_⟩
  · rw [hgw, List.length_map]
    unfold gaussValues
    rw [List.length_map, List.length_range]
  · rw [hgw]
    have hrw : (gaussValues (min kernelSize maxBlurSize)).map
        (fun v => v / (gaussValues (min kernelSize maxBlurSize)).sum) =
        (gaussValues (min kernelSize maxBlurSize)).map
          (fun v => v * ((gaussValues (min kernelSize maxBlurSize)).sum)⁻¹) := by
      simp [div_eq_mul_inv]
    rw [hrw]
    rw [show (gaussValues (min kernelSize maxBlurSize)) =
      (List.range (min kernelSize maxBlurSize)).map
        (fun (i : ℕ) => gauss ((i : ℝ) - ((min kernelSize maxBlurSize : ℕ) - 1) * 0.5)
          ((((min kernelSize maxBlurSize : ℕ) : ℝ) - 1) / (2 * 3))) from rfl]
    rw [List.map_map]
    simp only [Function.comp_def]
    rw [List.sum_map_mul_right]
    exact mul_inv_cancel₀ hspos.ne'
  · intro i hi
    rw [hgw, List.getElem?_map]
    have hv : (gaussValues (min kernelSize maxBlurSize))[i]? =
        some (gauss ((i : ℝ) - ((min kernelSize maxBlurSize : ℕ) - 1) * 0.5)
          ((((min kernelSize maxBlurSize : ℕ) : ℝ) - 1) / (2 * 3))) := by
      unfold gaussValues
      rw [List.getElem?_map]
      simp [List.getElem?_range, hi]
    rw [hv]
    simp only [Option.map_some']
    congr 1
    rw [gauss]
    congr 1
    ring

theorem gaussWeights_normalized_witness : (gaussWeights 3).sum = 1 :=
  (gaussWeights_normalized 3 (by norm_num)).2.1

/-! ### IEEE-754 behaviour of `gaussWeights` at kernel size 1

JavaScript numbers are IEEE-754 doubles.  The model below captures the
extended values (`±Infinity`, `NaN`) and their propagation through the
arithmetic used by `gauss`/`gaussWeights`, over exact reals (no rounding):
this is enough to exhibit the `0/0 → NaN` behaviour the code has when the
kernel size is 1 and `sigma = 0`. -/

inductive JSNum where
  | num : ℝ → JSNum
  | posInf : JSNum
  | negInf : JSNum
  | nan : JSNum

def JSNum.neg : JSNum → JSNum
  | num a => num (-a)
  | posInf => negInf
  | negInf => posInf
  | nan => nan

def JSNum.add : JSNum → JSNum → JSNum
  | nan, _ => nan
  | _, nan => nan
  | posInf, negInf => nan
  | negInf, posInf => nan
  | posInf, _ => posInf
  | _, posInf => posInf
  | negInf, _ => negInf
  | _, negInf => negInf
  | num a, num b => num (a + b)

def JSNum.mul : JSNum → JSNum → JSNum
  | nan, _ => nan
  | _, nan => nan
  | num a, num b => num (a * b)
  | posInf, posInf => posInf
  | posInf, negInf => negInf
  | negInf, posInf => negInf
  | negInf, negInf => posInf
  | posInf, num b => if b = 0 then nan else if 0 < b then posInf else negInf
  | num a, posInf => if a = 0 then nan else if 0 < a then posInf else negInf
  | negInf, num b => if b = 0 then nan else if 0 < b then negInf else posInf
  | num a, negInf => if a = 0 then nan else if 0 < a then negInf else posInf

def JSNum.div : JSNum → JSNum → JSNum
  | nan, _ => nan
  | _, nan => nan
  | num a, num b =>
      if b = 0 then (if a = 0 then nan else if 0 < a then posInf else negInf)
      else num (a / b)
  | posInf, num b => if 0 ≤ b then posInf else negInf
  | negInf, num b => if 0 ≤ b then negInf else posInf
  | num _, posInf => num 0
  | num _, negInf => num 0
  | posInf, posInf => nan
  | posInf, negInf => nan
  | negInf, posInf => nan
  | negInf, negInf => nan

def JSNum.exp : JSNum → JSNum
  | nan => nan
  | posInf => posInf
  | negInf => num 0
  | num a => num (Real.exp a)

/-- `gauss` over IEEE-754-style values: `Math.exp(-(x*x) / (2.0*sigma*sigma))`. -/
def gaussJS (x sigma : JSNum) : JSNum :=
  JSNum.exp (JSNum.div (JSNum.neg (JSNum.mul x x))
    (JSNum.mul (JSNum.mul (JSNum.num 2) sigma) sigma))

/-- `gaussWeights` over IEEE-754-style values, mirroring the source loop:
clamp, `sigma = (k-1)/(2*3)`, evaluate `gauss` at `i - halfWidth`,
accumulate the sum, divide each entry by the sum. -/
def gaussWeightsJS (kernelSize : ℕ) : List JSNum :=
  let k := if kernelSize > maxBlurSize then maxBlurSize else kernelSize
  let sigma := JSNum.div (JSNum.num ((k : ℝ) - 1)) (JSNum.num (2 * 3))
  let values := (List.range k).map fun i =>
    gaussJS (JSNum.num ((i : ℝ) - ((k : ℝ) - 1) * 0.5)) sigma
  let s := values.foldl JSNum.add (JSNum.num 0)
  values.map fun v => JSNum.div v s

/-- C6 counterexample: at kernel size 1 the code computes
`sigma = 0` and `gauss(0, 0) = exp(-(0·0)/(2·0·0)) = exp(-0/0) = NaN`, so
the returned weight array is `[NaN]` — not a weight set summing to 1
within `1e-6`. -/
theorem gaussWeights_kernel_one_nan : gaussWeightsJS 1 = [JSNum.nan] := by
  unfold gaussWeightsJS maxBlurSize
  norm_num [List.range_succ, gaussJS, JSNum.mul, JSNum.div, JSNum.neg, JSNum.exp, JSNum.add]


/-! ## Render-state sequencing (`setupRenderState` / `restoreRenderState`) -/

/-- The GPU render state touched by the shadow pass, together with the two
capability flags the code branches on.  `depthBiasConst`/`depthBiasSlope`
model the two arguments of `setDepthBiasValues`; `polygonOffset0/1` model
the polygon-offset uniform used on the non-WebGL2 path. -/
structure GraphicsDevice where
  webgl2 : Bool
  extStandardDerivatives : Bool
  blending : Bool
  depthWrite : Bool
  depthTest : Bool
  depthFunc : ℕ
  depthBiasEnabled : Bool
  depthBiasConst : ℝ
  depthBiasSlope : ℝ
  colorWriteR : Bool
  colorWriteG : Bool
  colorWriteB : Bool
  colorWriteA : Bool
  polygonOffset0 : ℝ
  polygonOffset1 : ℝ

/-- `ShadowRenderer.setupRenderState`: depth bias per capability and light
type, then blending off, depth write/test on with `FUNC_LESSEQUAL`, and
color write chosen by the shadow-sampler decision. -/
def setupRenderState (isClustered : Bool) (light : Light) (d : GraphicsDevice) :
    GraphicsDevice :=
  let d1 :=
    if d.webgl2 then
      if light.lightType = LIGHTTYPE_OMNI ∧ isClustered = false then
        { d with depthBiasEnabled := false }
      else
        { d with depthBiasEnabled := true,
                 depthBiasConst := light.shadowBias * -1000.0,
                 depthBiasSlope := light.shadowBias * -1000.0 }
    else if d.extStandardDerivatives then
      if light.lightType = LIGHTTYPE_OMNI then
        { d with polygonOffset0 := 0, polygonOffset1 := 0 }
      else
        { d with polygonOffset0 := light.shadowBias * -1000.0,
                 polygonOffset1 := light.shadowBias * -1000.0 }
    else d
  let useShadowSampler :=
    if isClustered then light.isPcf && d.webgl2
    else light.isPcf && d.webgl2 && !(light.lightType == LIGHTTYPE_OMNI)
  { d1 with blending := false, depthWrite := true, depthTest := true,
            depthFunc := FUNC_LESSEQUAL,
            colorWriteR := !useShadowSampler, colorWriteG := !useShadowSampler,
            colorWriteB := !useShadowSampler, colorWriteA := !useShadowSampler }

/-- `ShadowRenderer.restoreRenderState`: disable the depth bias (WebGL2) or
zero the polygon-offset uniform (standard-derivatives path). -/
def restoreRenderState (d : GraphicsDevice) : GraphicsDevice :=
  if d.webgl2 then { d with depthBiasEnabled := false }
  else if d.extStandardDerivatives then { d with polygonOffset0 := 0, polygonOffset1 := 0 }
  else d

/-- C8: on a WebGL2 device, `setupRenderState` disables blending, enables
depth write and depth test with the less-or-equal comparator, and applies
a depth bias of `shadowBias * -1000` (sign pushing casters away from the
light), except that omni lights in non-atlas (non-clustered) mode get no
depth bias; `restoreRenderState` afterwards disables the depth bias,
leaving no bias in effect. -/
theorem setupRenderState_spec (isClustered : Bool) (light : Light)
    (d : GraphicsDevice) (hgl : d.webgl2 = true) :
    (setupRenderState isClustered light d).blending = false ∧
    (setupRenderState isClustered light d).depthWrite = true ∧
    (setupRenderState isClustered light d).depthTest = true ∧
    (setupRenderState isClustered light d).depthFunc = FUNC_LESSEQUAL ∧
    ((light.lightType = LIGHTTYPE_OMNI ∧ isClustered = false) →
      (setupRenderState isClustered light d).depthBiasEnabled = false) ∧
    (¬ (light.lightType = LIGHTTYPE_OMNI ∧ isClustered = false) →
      (setupRenderState isClustered light d).depthBiasEnabled = true ∧
      (setupRenderState isClustered light d).depthBiasConst = light.shadowBias * -1000.0 ∧
      (setupRenderState isClustered light d).depthBiasSlope = light.shadowBias * -1000.0) ∧
    (restoreRenderState (setupRenderState isClustered light d)).depthBiasEnabled = false := by
  unfold setupRenderState restoreRenderState
  by_cases hcond : light.lightType = LIGHTTYPE_OMNI ∧ isClustered = false <;>
    simp [hgl, hcond]

/-- A WebGL2 device in an arbitrary initial state, used by witnesses. -/
def deviceW : GraphicsDevice where
  webgl2 := true
  extStandardDerivatives := false
  blending := true
  depthWrite := false
  depthTest := false
  depthFunc := 0
  depthBiasEnabled := false
  depthBiasConst := 7
  depthBiasSlope := 7
  colorWriteR := true
  colorWriteG := true
  colorWriteB := true
  colorWriteA := true
  polygonOffset0 := 3
  polygonOffset1 := 3

theorem setupRenderState_spec_witness :
    (setupRenderState false lightTwoCascades deviceW).blending = false :=
  (setupRenderState_spec false lightTwoCascades deviceW rfl).1

/-! ## `ShadowRenderer.render`: update-mode transition and VSM blur -/

/-- Observable actions of one `ShadowRenderer.render` call. -/
inductive RenderEvent where
  | face : ℕ → RenderEvent
  | acquireTemp : ℕ → RenderEvent
  | drawBlurH : RenderEvent
  | drawBlurV : RenderEvent
  | releaseTemp : ℕ → RenderEvent
  | restoreState : RenderEvent
deriving DecidableEq

/-- `ShadowMapCache.get`: hand out a pooled shadow map if one is
available, otherwise allocate a fresh one (modelled by the `fresh`
identifier).  Returns the map and the remaining pool. -/
def cacheGet (cache : List ℕ) (fresh : ℕ) : ℕ × List ℕ :=
  match cache with
  | [] => (fresh, [])
  | m :: rest => (m, rest)

/-- `ShadowMapCache.add`: return a shadow map to the pool. -/
def cacheAdd (cache : List ℕ) (m : ℕ) : List ℕ := m :: cache

/-- `ShadowRenderer.applyVsmBlur`: acquire the temporary render target
from the shadow-map cache, run the horizontal then the vertical blur pass,
and return the temporary target to the cache before returning. -/
def applyVsmBlur (cache : List ℕ) (fresh : ℕ) : List ℕ × List RenderEvent :=
  let acquired := cacheGet cache fresh
  (cacheAdd acquired.2 acquired.1,
   [RenderEvent.acquireTemp acquired.1, RenderEvent.drawBlurH, RenderEvent.drawBlurV,
    RenderEvent.releaseTemp acquired.1])

/-- `ShadowRenderer.render`: skip disabled/`SHADOWUPDATE_NONE`/invisible
lights; switch `SHADOWUPDATE_THISFRAME` to `SHADOWUPDATE_NONE` before
drawing; render one face per shadow face; run the VSM blur only for
variance lights with blur size `> 1` that are non-atlas or directional;
restore the render state.  Returns the updated light, the updated
shadow-map cache and the event trace. -/
def renderShadow (isClustered : Bool) (light : Light) (cache : List ℕ) (fresh : ℕ) :
    Light × List ℕ × List RenderEvent :=
  if light.enabled = true ∧ light.castShadows = true ∧
      light.shadowUpdateMode ≠ SHADOWUPDATE_NONE ∧ light.visibleThisFrame = true then
    let light' :=
      if light.shadowUpdateMode = SHADOWUPDATE_THISFRAME then
        { light with shadowUpdateMode := SHADOWUPDATE_NONE }
      else light
    let faceEvents := (List.range light.numShadowFaces).map RenderEvent.face
    let blur :=
      if light.isVsm = true ∧ 1 < light.vsmBlurSize ∧
          (isClustered = false ∨ light.lightType = LIGHTTYPE_DIRECTIONAL) then
        applyVsmBlur cache fresh
      else (cache, [])
    (light', blur.1, faceEvents ++ blur.2 ++ [RenderEvent.restoreState])
  else (light, cache, [])

/-- The light-state transition of one `render` call. -/
def renderStep (isClustered : Bool) (cache : List ℕ) (fresh : ℕ) (light : Light) : Light :=
  (renderShadow isClustered light cache fresh).1

/-- The number of shadow faces drawn by one `render` call. -/
def facesRendered (r : Light × List ℕ × List RenderEvent) : ℕ :=
  (r.2.2.filter fun e => match e with | RenderEvent.face _ => true | _ => false).length

lemma renderShadow_none (isClustered : Bool) (cache : List ℕ) (fresh : ℕ) (l : Light)
    (hm : l.shadowUpdateMode = SHADOWUPDATE_NONE) :
    renderShadow isClustered l cache fresh = (l, cache, []) := by
  unfold renderShadow
  rw [if_neg]
  intro hcon
  exact hcon.2.2.1 hm

/-- C7: a single `render` call on an enabled, shadow-casting, visible
light in `SHADOWUPDATE_THISFRAME` mode switches the mode to
`SHADOWUPDATE_NONE` before drawing (the call itself still renders its
faces), and every subsequent `render` call, as long as the mode remains
`SHADOWUPDATE_NONE`, performs no shadow work at all (empty event trace, no
faces) and keeps the mode at `SHADOWUPDATE_NONE` until externally reset. -/
theorem render_thisframe_once (isClustered : Bool) (l : Light) (cache : List ℕ) (fresh : ℕ)
    (hen : l.enabled = true) (hcast : l.castShadows = true)
    (hvis : l.visibleThisFrame = true)
    (hm : l.shadowUpdateMode = SHADOWUPDATE_THISFRAME) :
    (renderShadow isClustered l cache fresh).1.shadowUpdateMode = SHADOWUPDATE_NONE ∧
    facesRendered (renderShadow isClustered l cache fresh) = l.numShadowFaces ∧
    (∀ n : ℕ,
      ((renderStep isClustered cache fresh)^[n]
          ((renderShadow isClustered l cache fresh).1)).shadowUpdateMode =
        SHADOWUPDATE_NONE ∧
      renderShadow isClustered
          ((renderStep isClustered cache fresh)^[n]
            ((renderShadow isClustered l cache fresh).1)) cache fresh =
        (((renderStep isClustered cache fresh)^[n]
            ((renderShadow isClustered l cache fresh).1)), cache, [])) := by
  have hguard : l.enabled = true ∧ l.castShadows = true ∧
      l.shadowUpdateMode ≠ SHADOWUPDATE_NONE ∧ l.visibleThisFrame = true := by
    refine ⟨hen, hcast, ?_, hvis⟩
    rw [hm]
    decide
  have hfst : (renderShadow isClustered l cache fresh).1 =
      { l with shadowUpdateMode := SHADOWUPDATE_NONE } := by
    unfold renderShadow
    rw [if_pos hguard, if_pos hm]
  have hstep : ∀ l' : Light, l'.shadowUpdateMode = SHADOWUPDATE_NONE →
      renderStep isClustered cache fresh l' = l' := by
    intro l' hm'
    unfold renderStep
    rw [renderShadow_none isClustered cache fresh l' hm']
  have hmode : ∀ n : ℕ,
      ((renderStep isClustered cache fresh)^[n]
        ((renderShadow isClustered l cache fresh).1)).shadowUpdateMode =
      SHADOWUPDATE_NONE := by
    intro n
    induction n with
    | zero =>
      simp [hfst]
    | succ n ih =>
      rw [Function.iterate_succ_apply', hstep _ ih]
      exact ih
  refine ⟨by rw [hfst], ?_, fun n => ⟨hmode n, renderShadow_none _ _ _ _ (hmode n)⟩⟩
  unfold renderShadow facesRendered
  rw [if_pos hguard]
  by_cases hb : l.isVsm = true ∧ 1 < l.vsmBlurSize ∧
      (isClustered = false ∨ l.lightType = LIGHTTYPE_DIRECTIONAL)
  · simp only [if_pos hb]
    simp [applyVsmBlur, cacheGet, cacheAdd, List.filter_append, List.filter_map,
      List.filter, Function.comp_def]
  · simp only [if_neg hb]
    simp [List.filter_append, List.filter_map, List.filter, Function.comp_def]

/-- A light in `SHADOWUPDATE_THISFRAME` mode used by witnesses. -/
def lightThisFrame : Light :=
  { lightTwoCascades with shadowUpdateMode := SHADOWUPDATE_THISFRAME }

theorem render_thisframe_once_witness :
    (renderShadow false lightThisFrame [] 0).1.shadowUpdateMode = SHADOWUPDATE_NONE :=
  (render_thisframe_once false lightThisFrame [] 0 rfl rfl rfl rfl).1

/-- C9: `render` reaches the VSM blur only when the light is a variance
light with blur kernel size `> 1` that is non-atlas (clustered lighting
disabled) or directional; when the blur runs, `applyVsmBlur` acquires the
temporary render target from the shadow-map cache before the horizontal
pass and returns it to the cache immediately after the vertical pass
within the same call: the trace is exactly acquire, horizontal draw,
vertical draw, release, the temporary map is back in the resulting cache,
and the cache size is restored (grown by one only if the pool was empty
and a fresh map had to be allocated). -/
theorem vsmBlur_gating_and_pooling (isClustered : Bool) (l : Light)
    (cache : List ℕ) (fresh : ℕ) :
    ((∃ m, RenderEvent.acquireTemp m ∈ (renderShadow isClustered l cache fresh).2.2) →
      l.isVsm = true ∧ 1 < l.vsmBlurSize ∧
        (isClustered = false ∨ l.lightType = LIGHTTYPE_DIRECTIONAL)) ∧
    (applyVsmBlur cache fresh).2 =
      [RenderEvent.acquireTemp (cacheGet cache fresh).1, RenderEvent.drawBlurH,
       RenderEvent.drawBlurV, RenderEvent.releaseTemp (cacheGet cache fresh).1] ∧
    (applyVsmBlur cache fresh).1 = cacheAdd (cacheGet cache fresh).2 (cacheGet cache fresh).1 ∧
    (cacheGet cache fresh).1 ∈ (applyVsmBlur cache fresh).1 ∧
    (applyVsmBlur cache fresh).1.length = (if cache = [] then 1 else cache.length) := by
  refine ⟨?_, rfl, rfl, ?_, ?_⟩
  · rintro ⟨m, hm⟩
    unfold renderShadow at hm
    by_cases hguard : l.enabled = true ∧ l.castShadows = true ∧
        l.shadowUpdateMode ≠ SHADOWUPDATE_NONE ∧ l.visibleThisFrame = true
    · rw [if_pos hguard] at hm
      by_cases hb : l.isVsm = true ∧ 1 < l.vsmBlurSize ∧
          (isClustered = false ∨ l.lightType = LIGHTTYPE_DIRECTIONAL)
      · exact hb
      · exfalso
        rw [if_neg hb] at hm
        simp only [List.mem_append, List.mem_map, List.mem_singleton] at hm
        rcases hm with (⟨i, _, hface⟩ | h) | h
        · exact RenderEvent.noConfusion hface
        · exact absurd h (List.not_mem_nil _)
        · exact RenderEvent.noConfusion h
    · rw [if_neg hguard] at hm
      exact absurd hm (List.not_mem_nil _)
  · show (cacheGet cache fresh).1 ∈ cacheAdd (cacheGet cache fresh).2 (cacheGet cache fresh).1
    unfold cacheAdd
    exact List.mem_cons_self _ _
  · cases cache with
    | nil => rfl
    | cons m rest => rfl

theorem vsmBlur_gating_and_pooling_witness :
    (applyVsmBlur ([] : List ℕ) 7).2 =
      [RenderEvent.acquireTemp 7, RenderEvent.drawBlurH, RenderEvent.drawBlurV,
       RenderEvent.releaseTemp 7] :=
  (vsmBlur_gating_and_pooling false lightTwoCascades [] 7).2.1


/-! ## Vectors, matrices, bounding boxes (engine math library, modelled) -/

/-- Modelled from the spec: `Vec3` from the engine math library (not among
the sources), a 3-component real vector. -/
@[ext]
structure Vec3 where
  x : ℝ
  y : ℝ
  z : ℝ

namespace Vec3

def add (a b : Vec3) : Vec3 := ⟨a.x + b.x, a.y + b.y, a.z + b.z⟩

def sub (a b : Vec3) : Vec3 := ⟨a.x - b.x, a.y - b.y, a.z - b.z⟩

def mulScalar (a : Vec3) (s : ℝ) : Vec3 := ⟨a.x * s, a.y * s, a.z * s⟩

def dot (a b : Vec3) : ℝ := a.x * b.x + a.y * b.y + a.z * b.z

def length (a : Vec3) : ℝ := Real.sqrt (a.x ^ 2 + a.y ^ 2 + a.z ^ 2)

end Vec3

/-- Modelled from the spec: the affine action of a `Mat4` (engine math
library, not among the sources).  `Mat4.transformPoint` applies the 4×4
matrix to `(p, 1)` and keeps the first three components; only the three
linear rows `r0, r1, r2` and the translation column `t` participate. -/
structure Mat4A where
  r0 : Vec3
  r1 : Vec3
  r2 : Vec3
  t : Vec3

def Mat4A.transformPoint (m : Mat4A) (p : Vec3) : Vec3 :=
  ⟨m.r0.dot p + m.t.x, m.r1.dot p + m.t.y, m.r2.dot p + m.t.z⟩

/-- Modelled from the spec: `BoundingBox` from the engine shape library
(not among the sources), viewed through its min/max corners (the engine
stores center and half-extents; `getMin`/`getMax` expose the corners).
`addBox` is `BoundingBox.add`: the union, by componentwise min of the min
corners and max of the max corners. -/
structure BoundingBox where
  bbMin : Vec3
  bbMax : Vec3

def BoundingBox.addBox (a b : BoundingBox) : BoundingBox :=
  ⟨⟨min a.bbMin.x b.bbMin.x, min a.bbMin.y b.bbMin.y, min a.bbMin.z b.bbMin.z⟩,
   ⟨max a.bbMax.x b.bbMax.x, max a.bbMax.y b.bbMax.y, max a.bbMax.z b.bbMax.z⟩⟩

/-- `a` contains `b` componentwise. -/
def containsBox (a b : BoundingBox) : Prop :=
  a.bbMin.x ≤ b.bbMin.x ∧ a.bbMin.y ≤ b.bbMin.y ∧ a.bbMin.z ≤ b.bbMin.z ∧
  b.bbMax.x ≤ a.bbMax.x ∧ b.bbMax.y ≤ a.bbMax.y ∧ b.bbMax.z ≤ a.bbMax.z

/-- Modelled from the spec: the camera `GraphNode` as the shadow pass uses
it — a world position and the world direction of the node's local z axis.
`translateLocal(0, 0, dz)` moves the position by `dz` along the local z
axis. -/
structure CamNode where
  position : Vec3
  axisZ : Vec3

def CamNode.translateLocalZ (n : CamNode) (dz : ℝ) : CamNode :=
  { n with position := n.position.add (n.axisZ.mulScalar dz) }

/-! ## Depth range of an AABB in camera space (`getDepthRange`) -/

/-- The eight corner points assembled by `getDepthRange` into the shared
`aabbPoints` array (the source distributes `aabbMin`/`aabbMax` components
over indices 0–7; written out, the eight points are exactly these). -/
def aabbCorners (aabbMin aabbMax : Vec3) : List Vec3 :=
  [⟨aabbMin.x, aabbMax.y, aabbMax.z⟩, ⟨aabbMin.x, aabbMin.y, aabbMax.z⟩,
   ⟨aabbMin.x, aabbMax.y, aabbMin.z⟩, ⟨aabbMin.x, aabbMin.y, aabbMin.z⟩,
   ⟨aabbMax.x, aabbMax.y, aabbMax.z⟩, ⟨aabbMax.x, aabbMin.y, aabbMax.z⟩,
   ⟨aabbMax.x, aabbMax.y, aabbMin.z⟩, ⟨aabbMax.x, aabbMin.y, aabbMin.z⟩]

/-- `getDepthRange`: transform the eight AABB corners by the camera view
matrix and accumulate the minimum and maximum z, starting from the
sentinels `9999999999` and `-9999999999` as in the source.  Returns
`(min, max)`. -/
def getDepthRange (cameraViewMatrix : Mat4A) (aabbMin aabbMax : Vec3) : ℝ × ℝ :=
  let zs := (aabbCorners aabbMin aabbMax).map fun p => (cameraViewMatrix.transformPoint p).z
  (zs.foldl min 9999999999, zs.foldl max (-9999999999))

lemma foldl_min_init (l : List ℝ) (a : ℝ) : l.foldl min a ≤ a := by
  induction l generalizing a with
  | nil => exact le_refl a
  | cons b l ih => exact le_trans (ih (min a b)) (min_le_left a b)

lemma foldl_min_le (l : List ℝ) : ∀ (a : ℝ), ∀ x ∈ l, l.foldl min a ≤ x := by
  induction l with
  | nil =>
    intro a x hx
    exact absurd hx (List.not_mem_nil x)
  | cons b l ih =>
    intro a x hx
    rcases List.mem_cons.mp hx with rfl | hx
    · exact le_trans (foldl_min_init l (min a x)) (min_le_right a x)
    · exact ih (min a b) x hx

lemma foldl_min_mem (l : List ℝ) (a : ℝ) : l.foldl min a = a ∨ l.foldl min a ∈ l := by
  induction l generalizing a with
  | nil => exact Or.inl rfl
  | cons b l ih =>
    rcases ih (min a b) with h | h
    · rcases min_choice a b with hc | hc
      · exact Or.inl (by rw [List.foldl_cons, h, hc])
      · exact Or.inr (by rw [List.foldl_cons, h, hc]; exact List.mem_cons_self b l)
    · exact Or.inr (List.mem_cons_of_mem b h)

lemma init_le_foldl_max (l : List ℝ) (a : ℝ) : a ≤ l.foldl max a := by
  induction l generalizing a with
  | nil => exact le_refl a
  | cons b l ih => exact le_trans (le_max_left a b) (ih (max a b))

lemma le_foldl_max (l : List ℝ) : ∀ (a : ℝ), ∀ x ∈ l, x ≤ l.foldl max a := by
  induction l with
  | nil =>
    intro a x hx
    exact absurd hx (List.not_mem_nil x)
  | cons b l ih =>
    intro a x hx
    rcases List.mem_cons.mp hx with rfl | hx
    · exact le_trans (le_max_right a x) (init_le_foldl_max l (max a x))
    · exact ih (max a b) x hx

lemma foldl_max_mem (l : List ℝ) (a : ℝ) : l.foldl max a = a ∨ l.foldl max a ∈ l := by
  induction l generalizing a with
  | nil => exact Or.inl rfl
  | cons b l ih =>
    rcases ih (max a b) with h | h
    · rcases max_choice a b with hc | hc
      · exact Or.inl (by rw [List.foldl_cons, h, hc])
      · exact Or.inr (by rw [List.foldl_cons, h, hc]; exact List.mem_cons_self b l)
    · exact Or.inr (List.mem_cons_of_mem b h)

/-! ## The cascade depth pass of `cullDirectional` (shared `visibleSceneAabb`) -/

/-- The caster-AABB accumulation loop of `cullDirectional`: starting from
the module-level shared `visibleSceneAabb` (`state`), copy the first
visible caster's AABB over it and fold the remaining ones in with
`BoundingBox.add`; an empty caster list leaves the shared box untouched. -/
def updateVisibleSceneAabb (state : BoundingBox) (visibleCasters : List BoundingBox) :
    BoundingBox :=
  (visibleCasters.foldl
    (fun acc mi => if acc.1 then ((false : Bool), mi) else (false, acc.2.addBox mi))
    (true, state)).2

/-- The tail of each `cullDirectional` cascade iteration: accumulate the
visible-caster AABB into the shared box, evaluate the depth range of that
box in shadow-camera view space, translate the camera node back along its
local z by `max + 0.1`, and set the far clip to `max - min + 0.2`.
Returns (new shared box, adjusted camera node, far clip). -/
def processCascadeDepth (state : BoundingBox) (visibleCasters : List BoundingBox)
    (shadowCamView : Mat4A) (node : CamNode) : BoundingBox × CamNode × ℝ :=
  let aabb := updateVisibleSceneAabb state visibleCasters
  let dr := getDepthRange shadowCamView aabb.bbMin aabb.bbMax
  (aabb, node.translateLocalZ (dr.2 + 0.1), dr.2 - dr.1 + 0.2)

lemma visibleAabb_loop (cs : List BoundingBox) : ∀ b : BoundingBox,
    cs.foldl (fun acc mi => if acc.1 then ((false : Bool), mi) else (false, acc.2.addBox mi))
      ((false : Bool), b) = (false, cs.foldl BoundingBox.addBox b) := by
  induction cs with
  | nil => intro b; rfl
  | cons e cs ih =>
    intro b
    rw [List.foldl_cons, List.foldl_cons]
    exact ih (b.addBox e)

lemma updateVisibleSceneAabb_cons (state c : BoundingBox) (cs : List BoundingBox) :
    updateVisibleSceneAabb state (c :: cs) = cs.foldl BoundingBox.addBox c := by
  unfold updateVisibleSceneAabb
  rw [List.foldl_cons]
  rw [show (if ((true : Bool), state).1 then ((false : Bool), c)
      else (false, ((true : Bool), state).2.addBox c)) = ((false : Bool), c) from rfl]
  rw [visibleAabb_loop]

lemma containsBox_refl (a : BoundingBox) : containsBox a a :=
  ⟨le_refl _, le_refl _, le_refl _, le_refl _, le_refl _, le_refl _⟩

lemma containsBox_trans {a b c : BoundingBox} (h1 : containsBox a b) (h2 : containsBox b c) :
    containsBox a c :=
  ⟨le_trans h1.1 h2.1, le_trans h1.2.1 h2.2.1, le_trans h1.2.2.1 h2.2.2.1,
   le_trans h2.2.2.2.1 h1.2.2.2.1, le_trans h2.2.2.2.2.1 h1.2.2.2.2.1,
   le_trans h2.2.2.2.2.2 h1.2.2.2.2.2⟩

lemma containsBox_addBox_left (a b : BoundingBox) : containsBox (a.addBox b) a :=
  ⟨min_le_left _ _, min_le_left _ _, min_le_left _ _,
   le_max_left _ _, le_max_left _ _, le_max_left _ _⟩

lemma containsBox_addBox_right (a b : BoundingBox) : containsBox (a.addBox b) b :=
  ⟨min_le_right _ _, min_le_right _ _, min_le_right _ _,
   le_max_right _ _, le_max_right _ _, le_max_right _ _⟩

lemma foldl_addBox_contains (cs : List BoundingBox) : ∀ b : BoundingBox,
    containsBox (cs.foldl BoundingBox.addBox b) b ∧
    ∀ d ∈ cs, containsBox (cs.foldl BoundingBox.addBox b) d := by
  induction cs with
  | nil =>
    intro b
    refine ⟨containsBox_refl b, ?_⟩
    intro d hd
    exact absurd hd (List.not_mem_nil d)
  | cons e cs ih =>
    intro b
    have h := ih (b.addBox e)
    refine ⟨containsBox_trans h.1 (containsBox_addBox_left b e), ?_⟩
    intro d hd
    rcases List.mem_cons.mp hd with rfl | hd
    · exact containsBox_trans h.1 (containsBox_addBox_right b d)
    · exact h.2 d hd

/-- The index juggling of `getDepthRange` over `aabbPoints` produces
exactly the eight corner combinations of the box. -/
lemma aabbCorners_mem_iff (mn mx p : Vec3) :
    p ∈ aabbCorners mn mx ↔
      ((p.x = mn.x ∨ p.x = mx.x) ∧ (p.y = mn.y ∨ p.y = mx.y) ∧
       (p.z = mn.z ∨ p.z = mx.z)) := by
  constructor
  · intro hp
    simp only [aabbCorners, List.mem_cons, List.not_mem_nil, or_false] at hp
    rcases hp with rfl | rfl | rfl | rfl | rfl | rfl | rfl | rfl <;> simp
  · rintro ⟨hx | hx, hy | hy, hz | hz⟩ <;>
      simp [aabbCorners, Vec3.ext_iff, hx, hy, hz]

/-- C3: for a directional cascade with a non-empty culled visible-caster
list, the depth pass accumulates the union AABB of the visible casters
(overwriting, independently of the stale shared box), assembles exactly
the 8 corners of that box, transforms them into shadow-camera view space,
takes the attained minimum and maximum z, translates the camera node back
along its local z by `max + 0.1` and sets the far clip to
`max - min + 0.2`, so every caster corner's depth lies strictly inside
`(0, farClip)`.  The sentinel initial values `±9999999999` of the min/max
scan require the corner depths to lie within that range. -/
theorem cullDirectional_depth_range (state U : BoundingBox) (c : BoundingBox)
    (cs : List BoundingBox) (view : Mat4A) (node : CamNode) (zs : List ℝ) (mn mx : ℝ)
    (hU : U = updateVisibleSceneAabb state (c :: cs))
    (hzs : zs = (aabbCorners U.bbMin U.bbMax).map fun p => (view.transformPoint p).z)
    (hmn : mn = (getDepthRange view U.bbMin U.bbMax).1)
    (hmx : mx = (getDepthRange view U.bbMin U.bbMax).2)
    (hz : ∀ z ∈ zs, -9999999999 < z ∧ z < 9999999999) :
    (∀ b ∈ c :: cs, containsBox U b) ∧
    (∀ state' : BoundingBox, updateVisibleSceneAabb state' (c :: cs) = U) ∧
    (∀ p : Vec3, p ∈ aabbCorners U.bbMin U.bbMax ↔
      ((p.x = U.bbMin.x ∨ p.x = U.bbMax.x) ∧ (p.y = U.bbMin.y ∨ p.y = U.bbMax.y) ∧
       (p.z = U.bbMin.z ∨ p.z = U.bbMax.z))) ∧
    (mn ∈ zs ∧ mx ∈ zs ∧ ∀ z ∈ zs, mn ≤ z ∧ z ≤ mx) ∧
    (processCascadeDepth state (c :: cs) view node).2.1.position =
      node.position.add (node.axisZ.mulScalar (mx + 0.1)) ∧
    (processCascadeDepth state (c :: cs) view node).2.2 = mx - mn + 0.2 ∧
    (∀ z ∈ zs, 0 < mx + 0.1 - z ∧ mx + 0.1 - z < mx - mn + 0.2) := by
  have hU' : U = cs.foldl BoundingBox.addBox c := by
    rw [hU, updateVisibleSceneAabb_cons]
  have hdr : getDepthRange view U.bbMin U.bbMax =
      (zs.foldl min 9999999999, zs.foldl max (-9999999999)) := by
    rw [hzs]
    rfl
  have hmn' : mn = zs.foldl min 9999999999 := by rw [hmn, hdr]
  have hmx' : mx = zs.foldl max (-9999999999) := by rw [hmx, hdr]
  have hzs_ne : zs ≠ [] := by
    rw [hzs]
    simp [aabbCorners]
  have hminmax : mn ∈ zs ∧ mx ∈ zs ∧ ∀ z ∈ zs, mn ≤ z ∧ z ≤ mx := by
    obtain ⟨z0, hz0⟩ := List.exists_mem_of_ne_nil zs hzs_ne
    refine ⟨?_, ?_, fun z hzm => ⟨hmn' ▸ foldl_min_le zs _ z hzm, hmx' ▸ le_foldl_max zs _ z hzm⟩⟩
    · rcases foldl_min_mem zs 9999999999 with h | h
      · exfalso
        have h1 : zs.foldl min 9999999999 ≤ z0 := foldl_min_le zs _ z0 hz0
        have h2 := (hz z0 hz0).2
        rw [h] at h1
        linarith
      · rw [hmn']
        exact h
    · rcases foldl_max_mem zs (-9999999999) with h | h
      · exfalso
        have h1 : z0 ≤ zs.foldl max (-9999999999) := le_foldl_max zs _ z0 hz0
        have h2 := (hz z0 hz0).1
        rw [h] at h1
        linarith
      · rw [hmx']
        exact h
  refine ⟨?_, ?_, fun p => aabbCorners_mem_iff U.bbMin U.bbMax p, hminmax, ?_, ?_, ?_⟩
  · intro b hb
    rw [hU']
    rcases List.mem_cons.mp hb with rfl | hb
    · exact (foldl_addBox_contains cs b).1
    · exact (foldl_addBox_contains cs c).2 b hb
  · intro state'
    rw [updateVisibleSceneAabb_cons, hU']
  · show (CamNode.translateLocalZ node _).position = _
    rw [CamNode.translateLocalZ]
    have : (getDepthRange view (updateVisibleSceneAabb state (c :: cs)).bbMin
        (updateVisibleSceneAabb state (c :: cs)).bbMax).2 = mx := by
      rw [← hU, ← hmx]
    rw [this]
  · show (getDepthRange view (updateVisibleSceneAabb state (c :: cs)).bbMin
        (updateVisibleSceneAabb state (c :: cs)).bbMax).2 -
      (getDepthRange view (updateVisibleSceneAabb state (c :: cs)).bbMin
        (updateVisibleSceneAabb state (c :: cs)).bbMax).1 + 0.2 = mx - mn + 0.2
    rw [← hU, ← hmn, ← hmx]
  · intro z hzm
    have h := hminmax.2.2 z hzm
    constructor <;> linarith [h.1, h.2]

/-- Identity view matrix used by witnesses. -/
def mat4IdW : Mat4A := ⟨⟨1, 0, 0⟩, ⟨0, 1, 0⟩, ⟨0, 0, 1⟩, ⟨0, 0, 0⟩⟩

/-- A camera node at the origin looking along `-z`, used by witnesses. -/
def nodeW : CamNode := ⟨⟨0, 0, 0⟩, ⟨0, 0, 1⟩⟩

/-- A stale shared bounding box, used by witnesses. -/
def staleBoxW : BoundingBox := ⟨⟨5, 5, 5⟩, ⟨6, 6, 6⟩⟩

/-- The unit box, used by witnesses. -/
def unitBoxW : BoundingBox := ⟨⟨0, 0, 0⟩, ⟨1, 1, 1⟩⟩

theorem cullDirectional_depth_range_witness :
    (processCascadeDepth staleBoxW [unitBoxW] mat4IdW nodeW).2.2 = 1 - 0 + 0.2 :=
  (cullDirectional_depth_range staleBoxW unitBoxW unitBoxW [] mat4IdW nodeW
    [1, 1, 0, 0, 1, 1, 0, 0] 0 1
    rfl
    (by simp [aabbCorners, Mat4A.transformPoint, Vec3.dot, unitBoxW, mat4IdW])
    (by norm_num [getDepthRange, aabbCorners, Mat4A.transformPoint, Vec3.dot, unitBoxW, mat4IdW])
    (by norm_num [getDepthRange, aabbCorners, Mat4A.transformPoint, Vec3.dot, unitBoxW, mat4IdW])
    (by
      intro z hzm
      simp only [List.mem_cons, List.not_mem_nil, or_false] at hzm
      rcases hzm with rfl | rfl | rfl | rfl | rfl | rfl | rfl | rfl <;> norm_num)).2.2.2.2.2.1

/-- C10: when a cascade's culled visible-caster list is empty, the
accumulation loop never touches the shared `visibleSceneAabb`, so the
depth-range step reads the box retained from the most recent cascade that
had visible casters (of this or a previous call), and the cascade's camera
translation and far clip are derived from that stale box rather than from
anything about the empty cascade. -/
theorem visibleSceneAabb_stale_on_empty (state : BoundingBox) (c : BoundingBox)
    (cs : List BoundingBox) (view1 view2 : Mat4A) (node1 node2 : CamNode) :
    updateVisibleSceneAabb state [] = state ∧
    (processCascadeDepth state [] view2 node2).1 = state ∧
    (processCascadeDepth state [] view2 node2).2.2 =
      (getDepthRange view2 state.bbMin state.bbMax).2 -
        (getDepthRange view2 state.bbMin state.bbMax).1 + 0.2 ∧
    (processCascadeDepth state [] view2 node2).2.1.position =
      node2.position.add (node2.axisZ.mulScalar
        ((getDepthRange view2 state.bbMin state.bbMax).2 + 0.1)) ∧
    (processCascadeDepth ((processCascadeDepth state (c :: cs) view1 node1).1) [] view2
        node2).1 = cs.foldl BoundingBox.addBox c ∧
    (processCascadeDepth ((processCascadeDepth state (c :: cs) view1 node1).1) [] view2
        node2).2.2 =
      (getDepthRange view2 (cs.foldl BoundingBox.addBox c).bbMin
        (cs.foldl BoundingBox.addBox c).bbMax).2 -
      (getDepthRange view2 (cs.foldl BoundingBox.addBox c).bbMin
        (cs.foldl BoundingBox.addBox c).bbMax).1 + 0.2 := by
  have hcons : (processCascadeDepth state (c :: cs) view1 node1).1 =
      cs.foldl BoundingBox.addBox c := by
    show updateVisibleSceneAabb state (c :: cs) = _
    rw [updateVisibleSceneAabb_cons]
  refine ⟨rfl, rfl, rfl, rfl, ?_, ?_⟩
  · show updateVisibleSceneAabb (processCascadeDepth state (c :: cs) view1 node1).1 [] = _
    rw [show ∀ b : BoundingBox, updateVisibleSceneAabb b [] = b from fun b => rfl, hcons]
  · show (getDepthRange view2
        (updateVisibleSceneAabb (processCascadeDepth state (c :: cs) view1 node1).1 []).bbMin
        (updateVisibleSceneAabb (processCascadeDepth state (c :: cs) view1 node1).1 []).bbMax).2 -
      (getDepthRange view2
        (updateVisibleSceneAabb (processCascadeDepth state (c :: cs) view1 node1).1 []).bbMin
        (updateVisibleSceneAabb (processCascadeDepth state (c :: cs) view1 node1).1 []).bbMax).1 +
        0.2 = _
    rw [show ∀ b : BoundingBox, updateVisibleSceneAabb b [] = b from fun b => rfl, hcons]

/-! ## Cascade centroid and texel snapping (C4) -/

/-- The frustum-slice corner points of the cascade, transformed to world
space by the viewer camera's world matrix (the in-place transform loop of
`cullDirectional`). -/
def frustumWorldPoints (pts : List Vec3) (M : Mat4A) : List Vec3 := pts.map M.transformPoint

/-- The centroid: sum the eight world-space corners into the shared
`center` vector (freshly zeroed) and scale by `1/8`. -/
def frustumCenter (pts : List Vec3) (M : Mat4A) : Vec3 :=
  ((frustumWorldPoints pts M).foldl Vec3.add ⟨0, 0, 0⟩).mulScalar (1/8)

/-- The bounding-sphere radius: maximum distance from a world-space corner
to the centroid, accumulated from `0`. -/
def frustumRadius (pts : List Vec3) (M : Mat4A) : ℝ :=
  ((frustumWorldPoints pts M).map fun (p : Vec3) =>
    (p.sub (frustumCenter pts M)).length).foldl max 0

/-- One snapped coordinate: `Math.ceil(p * texelScale) / texelScale` (the
source calls `texelScale` "sizeRatio"). -/
def snapCoord (p texelScale : ℝ) : ℝ := ((⌈p * texelScale⌉ : ℤ) : ℝ) / texelScale

/-- The cascade centroid computation and texel snapping of
`cullDirectional` (the shared `center` vector is zeroed on entry, so its
stale value `sharedCenter` is discarded): centroid and radius of the
frustum slice; snap the centroid's projections on the light's local up and
right axes with `texelScale = 0.25 * resolution / radius`; rebuild the
snapped centroid; position the camera `1000000` units back along the
camera node's local z.  Returns (snapped centroid, camera position). -/
def computeCascadeCamera (sharedCenter : Vec3) (pts : List Vec3) (M : Mat4A)
    (upAxis rightAxis lightDir camAxisZ : Vec3) (shadowResolution : ℝ) : Vec3 × Vec3 :=
  let c := frustumCenter pts M
  let radius := frustumRadius pts M
  let texelScale := 0.25 * shadowResolution / radius
  let x := snapCoord (c.dot upAxis) texelScale
  let y := snapCoord (c.dot rightAxis) texelScale
  let snapped := ((upAxis.mulScalar x).add (rightAxis.mulScalar y)).add
    (lightDir.mulScalar (c.dot lightDir))
  (snapped, snapped.add (camAxisZ.mulScalar 1000000))

/-- The snap rounds a projection up to the nearest multiple of the grid
cell `radius / (0.25 * resolution)`. -/
lemma snapCoord_grid (p texelScale : ℝ) (hts : 0 < texelScale) :
    (∃ k : ℤ, snapCoord p texelScale = (k : ℝ) / texelScale) ∧
    p ≤ snapCoord p texelScale ∧
    snapCoord p texelScale < p + 1 / texelScale := by
  refine ⟨⟨⌈p * texelScale⌉, rfl⟩, ?_, ?_⟩
  · rw [snapCoord, le_div_iff hts]
    exact Int.le_ceil (p * texelScale)
  · rw [snapCoord, div_lt_iff hts]
    have h := Int.ceil_lt_add_one (p * texelScale)
    have : (p + 1 / texelScale) * texelScale = p * texelScale + 1 := by
      field_simp
    rw [this]
    exact h

/-- C4: the cascade centroid computation and texel snapping are a pure
function of the frustum slice, camera matrix, light axes and resolution —
the stale contents of the shared `center` vector are overwritten — so
running the computation twice on identical inputs yields identical
shadow-camera transforms; and the snap rounds each of the centroid's
projections onto the light's local up and right axes up to the nearest
multiple of the grid cell `radius / (0.25 * resolution)` (via `Math.ceil`
of projection times `0.25 * resolution / radius`), the camera sitting
`1000000` units behind the snapped centroid along its local z axis. -/
theorem cascadeSnap_stable (s1 s2 : Vec3) (pts : List Vec3) (M : Mat4A)
    (upAxis rightAxis lightDir camAxisZ : Vec3) (res : ℝ)
    (hres : 0 < res) (hrad : 0 < frustumRadius pts M) :
    computeCascadeCamera s1 pts M upAxis rightAxis lightDir camAxisZ res =
      computeCascadeCamera s2 pts M upAxis rightAxis lightDir camAxisZ res ∧
    (∀ p : ℝ,
      (∃ k : ℤ, snapCoord p (0.25 * res / frustumRadius pts M) =
        (k : ℝ) * (frustumRadius pts M / (0.25 * res))) ∧
      p ≤ snapCoord p (0.25 * res / frustumRadius pts M) ∧
      snapCoord p (0.25 * res / frustumRadius pts M) <
        p + frustumRadius pts M / (0.25 * res)) ∧
    (computeCascadeCamera s1 pts M upAxis rightAxis lightDir camAxisZ res).1 =
      ((upAxis.mulScalar (snapCoord ((frustumCenter pts M).dot upAxis)
          (0.25 * res / frustumRadius pts M))).add
        (rightAxis.mulScalar (snapCoord ((frustumCenter pts M).dot rightAxis)
          (0.25 * res / frustumRadius pts M)))).add
        (lightDir.mulScalar ((frustumCenter pts M).dot lightDir)) ∧
    (computeCascadeCamera s1 pts M upAxis rightAxis lightDir camAxisZ res).2 =
      (computeCascadeCamera s1 pts M upAxis rightAxis lightDir camAxisZ res).1.add
        (camAxisZ.mulScalar 1000000) := by
  have hts : 0 < 0.25 * res / frustumRadius pts M := by
    apply div_pos _ hrad
    nlinarith
  have hgrid : 1 / (0.25 * res / frustumRadius pts M) = frustumRadius pts M / (0.25 * res) := by
    rw [one_div_div]
  refine ⟨rfl, ?_, rfl, rfl⟩
  intro p
  obtain ⟨⟨k, hk⟩, hle, hlt⟩ := snapCoord_grid p (0.25 * res / frustumRadius pts M) hts
  refine ⟨⟨k, ?_⟩, hle, ?_⟩
  · rw [hk, div_eq_mul_inv, ← one_div, hgrid]
  · rw [← hgrid]
    exact hlt

/-- Frustum points for the snapping witness: four corners at the origin
and four at `(2, 0, 0)`, so the centroid is `(1, 0, 0)` and the radius 1. -/
def ptsW : List Vec3 :=
  [⟨0, 0, 0⟩, ⟨0, 0, 0⟩, ⟨0, 0, 0⟩, ⟨0, 0, 0⟩, ⟨2, 0, 0⟩, ⟨2, 0, 0⟩, ⟨2, 0, 0⟩, ⟨2, 0, 0⟩]

lemma frustumRadius_ptsW : frustumRadius ptsW mat4IdW = 1 := by
  norm_num [frustumRadius, frustumWorldPoints, frustumCenter, ptsW, mat4IdW,
    Mat4A.transformPoint, Vec3.dot, Vec3.add, Vec3.mulScalar, Vec3.sub, Vec3.length]

theorem cascadeSnap_stable_witness :
    computeCascadeCamera ⟨9, 9, 9⟩ ptsW mat4IdW ⟨0, 1, 0⟩ ⟨1, 0, 0⟩ ⟨0, 0, -1⟩ ⟨0, 0, 1⟩ 4 =
      computeCascadeCamera ⟨-3, 0, 7⟩ ptsW mat4IdW ⟨0, 1, 0⟩ ⟨1, 0, 0⟩ ⟨0, 0, -1⟩ ⟨0, 0, 1⟩ 4 :=
  (cascadeSnap_stable ⟨9, 9, 9⟩ ⟨-3, 0, 7⟩ ptsW mat4IdW ⟨0, 1, 0⟩ ⟨1, 0, 0⟩ ⟨0, 0, -1⟩
    ⟨0, 0, 1⟩ 4 (by norm_num) (by rw [frustumRadius_ptsW]; norm_num)).1

/-! ## Shadow-caster culling (`cullShadowCasters`, C5) -/

/-- A caster candidate: its identity and its `cull` flag (`cull = false`
marks the instance as non-culling, i.e. always rendered).  The bounding
volume itself stays behind the abstract visibility test. -/
structure MeshInstance where
  id : ℕ
  cull : Bool
deriving DecidableEq

/-- `ShadowRenderer.cullShadowCasters`: keep a mesh instance when it is
marked non-culling or its bounding volume intersects the shadow camera's
frustum (`_isVisible`, defined on the mesh instance outside these sources,
is taken as an abstract test, and the forward renderer's
`depthSortCompare` as an abstract comparator; cameras are identified by an
index).  The kept instances are sorted.  The `visibleThisFrame := true`
mark on kept instances is a side effect on the scene objects, not
modelled. -/
def cullShadowCasters (isVisible : MeshInstance → ℕ → Bool)
    (cmp : MeshInstance → MeshInstance → Bool)
    (meshInstances : List MeshInstance) (camera : ℕ) : List MeshInstance :=
  (meshInstances.filter fun mi => !mi.cull || isVisible mi camera).mergeSort cmp

/-- C5: a mesh instance is placed in the visible-caster list iff it is
marked non-culling (its `cull` flag is off) or its bounding volume
intersects the shadow camera's frustum; consequently a culling-enabled
caster whose volume intersects no cascade frustum appears in no cascade's
visible-caster list, while a caster intersecting two cascades' frustums
appears in both lists. -/
theorem cullShadowCasters_spec (isVisible : MeshInstance → ℕ → Bool)
    (cmp : MeshInstance → MeshInstance → Bool)
    (l : List MeshInstance) (cam : ℕ) :
    (∀ mi : MeshInstance, mi ∈ cullShadowCasters isVisible cmp l cam ↔
        mi ∈ l ∧ (mi.cull = false ∨ isVisible mi cam = true)) ∧
    (∀ (mi : MeshInstance) (cams : List ℕ), mi.cull = true →
        (∀ c ∈ cams, isVisible mi c = false) →
        ∀ c ∈ cams, mi ∉ cullShadowCasters isVisible cmp l c) ∧
    (∀ (mi : MeshInstance) (cam1 cam2 : ℕ), mi ∈ l →
        isVisible mi cam1 = true → isVisible mi cam2 = true →
        mi ∈ cullShadowCasters isVisible cmp l cam1 ∧
        mi ∈ cullShadowCasters isVisible cmp l cam2) := by
  have key : ∀ (c : ℕ) (mi : MeshInstance), mi ∈ cullShadowCasters isVisible cmp l c ↔
      mi ∈ l ∧ (mi.cull = false ∨ isVisible mi c = true) := by
    intro c mi
    unfold cullShadowCasters
    rw [(List.mergeSort_perm _ cmp).mem_iff, List.mem_filter]
    simp [Bool.or_eq_true, Bool.not_eq_true']
  refine ⟨key cam, ?_, ?_⟩
  · intro mi cams hcull hnvis c hc hmem
    rcases ((key c mi).mp hmem).2 with h | h
    · rw [hcull] at h
      exact Bool.noConfusion h
    · rw [hnvis c hc] at h
      exact Bool.noConfusion h
  · intro mi cam1 cam2 hl h1 h2
    exact ⟨(key cam1 mi).mpr ⟨hl, Or.inr h1⟩, (key cam2 mi).mpr ⟨hl, Or.inr h2⟩⟩

/-- Visibility test for the culling witness: instance `i` is visible to
camera `c` iff `i = c`. -/
def visW : MeshInstance → ℕ → Bool := fun mi c => mi.id == c

theorem cullShadowCasters_spec_witness :
    (⟨0, true⟩ : MeshInstance) ∈
      cullShadowCasters visW (fun _ _ => true) [⟨0, true⟩, ⟨1, false⟩] 0 :=
  ((cullShadowCasters_spec visW (fun _ _ => true) [⟨0, true⟩, ⟨1, false⟩] 0).1
    ⟨0, true⟩).mpr ⟨List.mem_cons_self _ _, Or.inr (by decide)⟩

end Engine
